import Mathlib

/-!
Verification of the WebRTC signaling relay server (`server.js`).

The development shallowly embeds the server's message-handling logic:

* the SDP helper functions used by the server (`splitSections`, `splitLines`,
  `matchPrefix` from the `sdp` module, here `splitSectionsL`, `splitLinesL`,
  `matchPreL`, all operating on `List Char` to make the byte-level string
  manipulation explicit), together with the extension-URI parser;
* JSON values (`JVal`) as produced by `JSON.parse`, with JavaScript's
  truthiness test used by the `if (!data.id)` guard;
* the per-message handler (`handleMessage`) covering the offer sanitizer,
  registry lookup and forwarding, and the per-connection handler
  (`handleConnection`) covering id registration and the greeting sequence.

Connections are identified by their registry key (a `String`) and an opaque
transport handle (a `Nat`).  The registry is an association list mirroring
the insertion-ordered JavaScript `Map`.
-/

/-- JavaScript whitespace as recognised by `String.prototype.trim` (the
characters that occur in SDP text). -/
def isJsSpace (c : Char) : Bool :=
  c = ' ' || c = '\t' || c = '\n' || c = '\r' || c = '\x0b' || c = '\x0c'

/-- `String.prototype.trim` on character lists. -/
def trimL (l : List Char) : List Char :=
  ((l.dropWhile isJsSpace).reverse.dropWhile isJsSpace).reverse

/-- Worker for `String.prototype.split` with a non-empty string separator:
scan left to right, cutting at each leftmost occurrence of `sep`.  The fuel
starts at the length of the list and dominates it throughout, so the
`fuel = 0` branch is unreachable for non-empty separators. -/
def splitGo (sep : List Char) : Nat → List Char → List Char → List (List Char)
  | _, [], acc => [acc.reverse]
  | 0, l, acc => [acc.reverse ++ l]
  | fuel + 1, a :: l, acc =>
    if sep.isPrefixOf (a :: l) then
      acc.reverse :: splitGo sep fuel (List.drop sep.length (a :: l)) []
    else
      splitGo sep fuel l (a :: acc)

/-- `String.prototype.split(sep)` for a non-empty separator `sep`. -/
def splitOnSepL (sep : List Char) (l : List Char) : List (List Char) :=
  splitGo sep l.length l []

/-- `SDPUtils.splitLines`: `blob.trim().split('\n').map(line => line.trim())`. -/
def splitLinesL (blob : List Char) : List (List Char) :=
  (splitOnSepL ['\n'] (trimL blob)).map trimL

/-- `SDPUtils.splitSections`: split on `'\nm='`, re-attach the `m=` to every
section after the first, trim each part and append `'\r\n'`. -/
def splitSectionsL (blob : List Char) : List (List Char) :=
  match splitOnSepL ['\n', 'm', '='] blob with
  | [] => []
  | first :: rest =>
    (trimL first ++ ['\r', '\n']) ::
      rest.map (fun part => trimL ('m' :: '=' :: part) ++ ['\r', '\n'])

/-- `SDPUtils.getKind`: `splitLines(mediaSection)[0].split(' ')[0].substr(2)`. -/
def getKindL (sec : List Char) : List Char :=
  List.drop 2 ((splitOnSepL [' '] ((splitLinesL sec).headD [])).headD [])

/-- `SDPUtils.matchPrefix(blob, pre)`: the trimmed lines of `blob` that start
with `pre`. -/
def matchPreL (blob pre : List Char) : List (List Char) :=
  (splitLinesL blob).filter (fun line => pre.isPrefixOf line)

/-- The URI component of `SDPUtils.parseExtmap(line)`:
`line.substr(9).split(' ')[1]`, which may be absent. -/
def parseExtmapUriL (line : List Char) : Option (List Char) :=
  (splitOnSepL [' '] (List.drop 9 line)).get? 1

/-- The attribute-line marker searched for by the sanitizer (`'a=extmap:'`). -/
def extmapMarkL : List Char := "a=extmap:".data

/-- The denylist of RTP header-extension URIs (`extensionsToFilter` in
`server.js`). -/
def extensionsToFilter : List String :=
  ["http://tools.ietf.org/html/draft-ietf-avtext-framemarking-07",
   "http://www.webrtc.org/experiments/rtp-hdrext/video-timing"]

/-- `extensionsToFilter.includes(extension.uri)`; an absent URI (JavaScript
`undefined`) is never in the list. -/
def denylisted (uri : Option (List Char)) : Bool :=
  match uri with
  | none => false
  | some u => (extensionsToFilter.map String.data).contains u

/-- `String.prototype.replace(pat, '')` with a plain-string pattern: remove
the first occurrence of `pat`, if any. -/
def replaceFirstL (pat : List Char) : List Char → List Char
  | [] => []
  | a :: l =>
    if pat.isPrefixOf (a :: l) then List.drop pat.length (a :: l)
    else a :: replaceFirstL pat l

/-- The extension-filtering pass of one media section (the `forEach` over
`SDPUtils.matchPrefix(section, 'a=extmap:')` in `server.js`): for every
matched line whose parsed URI is denylisted, delete `line + '\r\n'` and then
`line + '\n'` from the accumulated description. -/
def stripSection (sec : List Char) (sdp : List Char) : List Char :=
  (matchPreL sec extmapMarkL).foldl
    (fun acc line =>
      if denylisted (parseExtmapUriL line) then
        replaceFirstL (line ++ ['\n']) (replaceFirstL (line ++ ['\r', '\n']) acc)
      else acc)
    sdp

/-- `['audio', 'video'].includes(kind)` for a media section. -/
def allowedKindL (sec : List Char) : Bool :=
  (["audio", "video"].map String.data).contains (getKindL sec)

/-- The per-section loop of the sanitizer in `server.js`: check the media
kind first (returning the violation on a disallowed kind), then strip
denylisted extension lines from the running description. -/
def sanitizeGo : List (List Char) → List Char → Option (List Char)
  | [], sdp => some sdp
  | sec :: rest, sdp =>
    if allowedKindL sec then sanitizeGo rest (stripSection sec sdp) else none

/-- The whole sanitizer on a session-description string: split into sections,
drop the session section (`sections.shift()`), and run the per-section loop.
`none` is the violation signal (the `ws.terminate()` paths). -/
def sanitizeSdpL (sdp : List Char) : Option (List Char) :=
  sanitizeGo ((splitSectionsL sdp).drop 1) sdp

/-- JSON values as produced by `JSON.parse` (numbers restricted to the
integers, which covers every value the protocol uses). -/
inductive JVal where
  | jnull
  | jbool (b : Bool)
  | jnum (n : Int)
  | jstr (s : String)
  | jarr (elems : List JVal)
  | jobj (fields : List (String × JVal))

/-- Property read `v[k]` on a parsed JSON value: a field of an object, and
`undefined` (here `none`) on everything else.  `JSON.parse` yields objects
with pairwise-distinct keys, so first-match lookup is exact. -/
def getProp (v : JVal) (k : String) : Option JVal :=
  match v with
  | JVal.jobj o => List.lookup k o
  | _ => none

/-- Property write `o[k] = v` on an object's field list: overwrite in place,
preserving key order, appending when the key is absent. -/
def setProp : List (String × JVal) → String → JVal → List (String × JVal)
  | [], k, v => [(k, v)]
  | (k', v') :: rest, k, v =>
    if k' = k then (k', v) :: rest else (k', v') :: setProp rest k v

/-- Property write on a parsed JSON value (a no-op on non-objects, as in
non-strict JavaScript). -/
def setPropJ (data : JVal) (k : String) (v : JVal) : JVal :=
  match data with
  | JVal.jobj o => JVal.jobj (setProp o k v)
  | other => other

/-- Removal of a field, for comparing a falsy field with an absent one. -/
def removeProp : List (String × JVal) → String → List (String × JVal)
  | [], _ => []
  | (k', v) :: rest, k =>
    if k' = k then removeProp rest k else (k', v) :: removeProp rest k

/-- JavaScript truthiness of `v[k]`-style reads: `undefined`, `null`,
`false`, `0` and `''` are falsy, everything else the protocol can carry is
truthy. -/
def truthy : Option JVal → Bool
  | none => false
  | some JVal.jnull => false
  | some (JVal.jbool b) => b
  | some (JVal.jnum n) => !(n == 0)
  | some (JVal.jstr s) => !(s == "")
  | some (JVal.jarr _) => true
  | some (JVal.jobj _) => true

/-- `data.type === 'offer'`: strict equality with the string `'offer'`. -/
def isOfferType : Option JVal → Bool
  | some (JVal.jstr s) => s == "offer"
  | _ => false

/-- Whether a field value is a string — exactly the condition under which
`SDPUtils.splitSections(data.sdp)` does not throw. -/
def isStrVal : Option JVal → Bool
  | some (JVal.jstr _) => true
  | _ => false

/-- The guarded sanitizer call on the `sdp` field of an offer.  A non-string
(or absent) field makes `SDPUtils.splitSections` throw; the `catch` block
turns that into the violation signal, so the model returns `none` there. -/
def sanitizeOffer (sdpField : Option JVal) : Option JVal :=
  match sdpField with
  | some (JVal.jstr s) => (sanitizeSdpL s.data).map (fun l => JVal.jstr (String.mk l))
  | _ => none

/-- The offer-specific part of the message handler: run the sanitizer on
offers (updating `data.sdp` in place on success) and pass every other
envelope through untouched.  `none` is the violation signal. -/
def sanitizeStep (data : JVal) : Option JVal :=
  if isOfferType (getProp data "type") then
    (sanitizeOffer (getProp data "sdp")).map (fun v => setPropJ data "sdp" v)
  else some data

/-- Outcome of processing one inbound message: whether the sender's socket
was forcefully terminated (`ws.terminate()`), and the destination key and
payload of the forwarded envelope, if any was sent. -/
structure RouterOutcome where
  terminated : Bool
  forwarded : Option (String × JVal)

/-- The `ws.on('message')` handler of `server.js` for a sender registered
under `selfId`.  `pdata` is the `JSON.parse` result (`none` on a parse
error).  The steps, in source order: the `!data.id` truthiness guard, the
offer sanitizer, the `connections.has(data.id)` lookup (which can only hit
for string keys), the `data.id = id` re-stamp and the send to the peer. -/
def handleMessage (reg : List (String × Nat)) (selfId : String)
    (pdata : Option JVal) : RouterOutcome :=
  match pdata with
  | none => ⟨false, none⟩
  | some data =>
    if truthy (getProp data "id") = false then ⟨false, none⟩
    else
      match sanitizeStep data with
      | none => ⟨true, none⟩
      | some d =>
        match getProp d "id" with
        | some (JVal.jstr dest) =>
          match List.lookup dest reg with
          | none => ⟨false, none⟩
          | some _ => ⟨false, some (dest, setPropJ d "id" (JVal.jstr selfId))⟩
        | _ => ⟨false, none⟩

/-- Observable actions of the `wss.on('connection')` handler.  `close`
models the graceful `ws.close()` call, `terminate` the forceful
`ws.terminate()` used by the message handler's violation paths. -/
inductive ConnEvent where
  | store (id : String) (c : Nat)
  | send (c : Nat) (msg : JVal)
  | close (c : Nat)
  | terminate (c : Nat)

/-- The greeting `{type: 'hello', id}`. -/
def helloMsg (id : String) : JVal :=
  JVal.jobj [("type", JVal.jstr "hello"), ("id", JVal.jstr id)]

/-- The greeting `{type: 'iceServers', iceServers: [...]}`. -/
def iceServersMsg : JVal :=
  JVal.jobj [("type", JVal.jstr "iceServers"),
    ("iceServers", JVal.jarr [JVal.jobj [("urls", JVal.jstr "stun:stun.l.google.com:19302")]])]

/-- `Map.prototype.set`: overwrite in place, preserving insertion order,
appending when the key is new. -/
def mapSet : List (String × Nat) → String → Nat → List (String × Nat)
  | [], id, c => [(id, c)]
  | (k, v) :: rest, id, c =>
    if k = id then (k, c) :: rest else (k, v) :: mapSet rest id c

/-- The `wss.on('connection')` handler of `server.js`: on a duplicate of the
generated id, close the new socket and change nothing; otherwise store the
connection and send the two greetings, in order. -/
def handleConnection (reg : List (String × Nat)) (id : String) (c : Nat) :
    List (String × Nat) × List ConnEvent :=
  if (List.lookup id reg).isSome then (reg, [ConnEvent.close c])
  else
    (mapSet reg id c,
     [ConnEvent.store id c, ConnEvent.send c (helloMsg id),
      ConnEvent.send c iceServersMsg])

/-! ### Helper lemmas about the registry and field operations -/

theorem lookup_setProp_self (o : List (String × JVal)) (k : String) (v : JVal) :
    List.lookup k (setProp o k v) = some v := by
  induction o with
  | nil => simp [setProp, List.lookup]
  | cons p rest ih =>
    obtain ⟨k', v'⟩ := p
    by_cases h : k' = k
    · subst h; simp [setProp, List.lookup]
    · have hb : (k == k') = false := by simp [Ne.symm h]
      simp [setProp, h, List.lookup, hb, ih]

theorem lookup_setProp_other (o : List (String × JVal)) (k k' : String) (v : JVal)
    (h : k' ≠ k) : List.lookup k' (setProp o k v) = List.lookup k' o := by
  induction o with
  | nil =>
    have hb : (k' == k) = false := by simp [h]
    simp [setProp, List.lookup, hb]
  | cons p rest ih =>
    obtain ⟨a, b⟩ := p
    by_cases ha : a = k
    · subst ha
      have hb : (k' == a) = false := by simp [h]
      simp [setProp, List.lookup, hb]
    · cases hk : k' == a with
      | true => simp [setProp, ha, List.lookup, hk]
      | false => simp [setProp, ha, List.lookup, hk, ih]

theorem lookup_removeProp (o : List (String × JVal)) (k : String) :
    List.lookup k (removeProp o k) = none := by
  induction o with
  | nil => simp [removeProp, List.lookup]
  | cons p rest ih =>
    obtain ⟨a, b⟩ := p
    by_cases ha : a = k
    · simp [removeProp, ha, ih]
    · have hb : (k == a) = false := by simp [Ne.symm ha]
      simp [removeProp, ha, List.lookup, hb, ih]

theorem mapSet_eq_append (reg : List (String × Nat)) (id : String) (c : Nat)
    (h : List.lookup id reg = none) : mapSet reg id c = reg ++ [(id, c)] := by
  induction reg with
  | nil => simp [mapSet]
  | cons p rest ih =>
    obtain ⟨a, b⟩ := p
    cases hk : id == a with
    | true => simp [List.lookup, hk] at h
    | false =>
      simp only [List.lookup, hk] at h
      have ha : ¬a = id := by intro hh; subst hh; simp at hk
      simp [mapSet, ha, ih h]

theorem lookup_append_single (reg : List (String × Nat)) (id : String) (c : Nat)
    (h : List.lookup id reg = none) :
    List.lookup id (reg ++ [(id, c)]) = some c := by
  induction reg with
  | nil => simp [List.lookup]
  | cons p rest ih =>
    obtain ⟨a, b⟩ := p
    cases hk : id == a with
    | true => simp [List.lookup, hk] at h
    | false =>
      simp only [List.lookup, hk] at h
      simp only [List.cons_append, List.lookup, hk]
      exact ih h

/-! ### Helper lemmas about the sanitizer -/

theorem foldlStrip_clean (L : List (List Char)) (sdp : List Char)
    (h : ∀ line ∈ L, denylisted (parseExtmapUriL line) = false) :
    L.foldl (fun acc line =>
      if denylisted (parseExtmapUriL line) then
        replaceFirstL (line ++ ['\n']) (replaceFirstL (line ++ ['\r', '\n']) acc)
      else acc) sdp = sdp := by
  induction L generalizing sdp with
  | nil => rfl
  | cons line rest ih =>
    have hline := h line (by simp)
    rw [List.foldl_cons, if_neg (by simp [hline])]
    exact ih sdp (fun l hl => h l (by simp [hl]))

theorem stripSection_clean (sec sdp : List Char)
    (h : ∀ line ∈ matchPreL sec extmapMarkL, denylisted (parseExtmapUriL line) = false) :
    stripSection sec sdp = sdp :=
  foldlStrip_clean (matchPreL sec extmapMarkL) sdp h

theorem sanitizeGo_clean : ∀ (secs : List (List Char)) (sdp : List Char),
    (∀ sec ∈ secs, allowedKindL sec = true) →
    (∀ sec ∈ secs, ∀ line ∈ matchPreL sec extmapMarkL,
      denylisted (parseExtmapUriL line) = false) →
    sanitizeGo secs sdp = some sdp := by
  intro secs
  induction secs with
  | nil => intro sdp hk he; rfl
  | cons sec rest ih =>
    intro sdp hk he
    have h1 := hk sec (by simp)
    simp only [sanitizeGo, h1, if_true]
    rw [stripSection_clean sec sdp (he sec (by simp))]
    exact ih sdp (fun s hs => hk s (by simp [hs])) (fun s hs => he s (by simp [hs]))

theorem sanitizeGo_none : ∀ (secs : List (List Char)) (sdp : List Char),
    (∃ sec ∈ secs, allowedKindL sec = false) → sanitizeGo secs sdp = none := by
  intro secs
  induction secs with
  | nil => intro sdp h; simp at h
  | cons sec rest ih =>
    intro sdp h
    by_cases hsec : allowedKindL sec = true
    · obtain ⟨s, hs, hbad⟩ := h
      rcases List.mem_cons.mp hs with rfl | hs'
      · rw [hsec] at hbad; cases hbad
      · simp only [sanitizeGo, hsec, if_true]
        exact ih _ ⟨s, hs', hbad⟩
    · simp [sanitizeGo, hsec]

theorem truthy_jstr (s : String) (h : s ≠ "") :
    truthy (some (JVal.jstr s)) = true := by
  simp [truthy, h]

theorem sanitizeStep_nonoffer (data : JVal)
    (h : isOfferType (getProp data "type") = false) : sanitizeStep data = some data := by
  simp [sanitizeStep, h]

theorem sanitizeStep_id (data d : JVal) (h : sanitizeStep data = some d) :
    getProp d "id" = getProp data "id" := by
  unfold sanitizeStep at h
  by_cases ht : isOfferType (getProp data "type") = true
  · rw [if_pos ht] at h
    rcases Option.map_eq_some'.mp h with ⟨v, hv, rfl⟩
    cases data with
    | jobj o => simp [setPropJ, getProp, lookup_setProp_other o "sdp" "id" v (by decide)]
    | jnull => rfl
    | jbool b => rfl
    | jnum n => rfl
    | jstr s => rfl
    | jarr l => rfl
  · rw [if_neg ht] at h
    exact congrArg (fun x => getProp x "id") (Option.some.inj h).symm

theorem sanitizeStep_obj (o : List (String × JVal)) (d : JVal)
    (h : sanitizeStep (JVal.jobj o) = some d) :
    ∃ o', d = JVal.jobj o' := by
  unfold sanitizeStep at h
  by_cases ht : isOfferType (getProp (JVal.jobj o) "type") = true
  · rw [if_pos ht] at h
    rcases Option.map_eq_some'.mp h with ⟨v, hv, rfl⟩
    exact ⟨setProp o "sdp" v, rfl⟩
  · rw [if_neg ht] at h
    exact ⟨o, (Option.some.inj h).symm⟩

/-! ### Claim theorems -/

/-- C2: an offer whose session description contains a media section whose
kind is outside the allowed set (audio, video) causes the sending connection
to be forcefully terminated, and nothing is forwarded to any peer. -/
theorem offer_disallowed_kind_terminated
    (reg : List (String × Nat)) (selfId : String) (o : List (String × JVal)) (sdp : String)
    (htr : truthy (getProp (JVal.jobj o) "id") = true)
    (htype : isOfferType (getProp (JVal.jobj o) "type") = true)
    (hsdp : getProp (JVal.jobj o) "sdp" = some (JVal.jstr sdp))
    (hbad : ∃ sec ∈ (splitSectionsL sdp.data).drop 1, allowedKindL sec = false) :
    handleMessage reg selfId (some (JVal.jobj o)) = ⟨true, none⟩ := by
  have hnone : sanitizeSdpL sdp.data = none := sanitizeGo_none _ _ hbad
  have hsan : sanitizeStep (JVal.jobj o) = none := by
    simp [sanitizeStep, htype, hsdp, sanitizeOffer, hnone]
  simp [handleMessage, htr, hsan]

theorem offer_disallowed_kind_terminated_witness :
    handleMessage [("b", 0)] "a"
      (some (JVal.jobj [("id", JVal.jstr "b"), ("type", JVal.jstr "offer"),
        ("sdp", JVal.jstr "v=0\nm=application 9 UDP\n")])) = ⟨true, none⟩ :=
  offer_disallowed_kind_terminated [("b", 0)] "a" _ "v=0\nm=application 9 UDP\n"
    rfl rfl rfl (by decide)

/-- C5: an offer whose `sdp` field the sanitizer cannot parse — in the
source the only failing inputs are non-string (or absent) fields, on which
`SDPUtils.splitSections` throws — is treated as a violation: the sender is
terminated and the message is discarded (fail closed). -/
theorem offer_unparsable_sdp_fail_closed
    (reg : List (String × Nat)) (selfId : String) (o : List (String × JVal))
    (htr : truthy (getProp (JVal.jobj o) "id") = true)
    (htype : isOfferType (getProp (JVal.jobj o) "type") = true)
    (hsdp : isStrVal (getProp (JVal.jobj o) "sdp") = false) :
    handleMessage reg selfId (some (JVal.jobj o)) = ⟨true, none⟩ := by
  have h1 : sanitizeOffer (getProp (JVal.jobj o) "sdp") = none := by
    cases hg : getProp (JVal.jobj o) "sdp" with
    | none => rfl
    | some v =>
      cases v with
      | jstr s => rw [hg] at hsdp; simp [isStrVal] at hsdp
      | jnull => rfl
      | jbool b => rfl
      | jnum n => rfl
      | jarr l => rfl
      | jobj f => rfl
  have hsan : sanitizeStep (JVal.jobj o) = none := by
    simp [sanitizeStep, htype, h1]
  simp [handleMessage, htr, hsan]

theorem offer_unparsable_sdp_fail_closed_witness :
    handleMessage [("b", 0)] "a"
      (some (JVal.jobj [("id", JVal.jstr "b"), ("type", JVal.jstr "offer")])) =
      ⟨true, none⟩ :=
  offer_unparsable_sdp_fail_closed [("b", 0)] "a"
    [("id", JVal.jstr "b"), ("type", JVal.jstr "offer")] rfl rfl rfl

/-- C6: an envelope that reaches the forwarding step (truthy destination id,
sanitizer passed) whose destination id is absent from the registry is
dropped silently: nothing is forwarded and the sender is not terminated. -/
theorem routing_miss_silent_drop
    (reg : List (String × Nat)) (selfId : String) (data d : JVal) (dest : String)
    (htr : truthy (getProp data "id") = true)
    (hsan : sanitizeStep data = some d)
    (hid : getProp d "id" = some (JVal.jstr dest))
    (hmiss : List.lookup dest reg = none) :
    handleMessage reg selfId (some data) = ⟨false, none⟩ := by
  simp [handleMessage, htr, hsan, hid, hmiss]

theorem routing_miss_silent_drop_witness :
    handleMessage [] "a" (some (JVal.jobj [("id", JVal.jstr "b")])) = ⟨false, none⟩ :=
  routing_miss_silent_drop [] "a" (JVal.jobj [("id", JVal.jstr "b")])
    (JVal.jobj [("id", JVal.jstr "b")]) "b" rfl rfl rfl rfl

/-- C9: an envelope whose `id` field is present but falsy (null, false, 0 or
the empty string) is discarded exactly as if the field were absent: no
forwarding, no termination, and the same outcome as for the envelope with
the field removed. -/
theorem falsy_id_discarded
    (reg : List (String × Nat)) (selfId : String) (o : List (String × JVal)) (v : JVal)
    (hid : List.lookup "id" o = some v)
    (hfalsy : v = JVal.jnull ∨ v = JVal.jbool false ∨ v = JVal.jnum 0 ∨ v = JVal.jstr "") :
    handleMessage reg selfId (some (JVal.jobj o)) = ⟨false, none⟩ ∧
    handleMessage reg selfId (some (JVal.jobj (removeProp o "id"))) = ⟨false, none⟩ := by
  have htr : truthy (getProp (JVal.jobj o) "id") = false := by
    rcases hfalsy with h | h | h | h <;> subst h <;> simp [getProp, hid, truthy]
  have htr2 : truthy (getProp (JVal.jobj (removeProp o "id")) "id") = false := by
    simp [getProp, lookup_removeProp, truthy]
  constructor
  · simp [handleMessage, htr]
  · simp [handleMessage, htr2]

theorem falsy_id_discarded_witness :
    handleMessage [] "a" (some (JVal.jobj [("id", JVal.jnum 0)])) = ⟨false, none⟩ :=
  (falsy_id_discarded [] "a" [("id", JVal.jnum 0)] (JVal.jnum 0) rfl
    (Or.inr (Or.inr (Or.inl rfl)))).1

/-- C3: a non-offer envelope with a truthy destination id resolving in the
registry is forwarded to that destination with the `id` field rewritten to
the sender's id and every other field unchanged. -/
theorem forward_rewrites_only_id
    (reg : List (String × Nat)) (selfId : String) (o : List (String × JVal))
    (dest : String) (conn : Nat)
    (hid : List.lookup "id" o = some (JVal.jstr dest))
    (hne : dest ≠ "")
    (htype : isOfferType (getProp (JVal.jobj o) "type") = false)
    (hreg : List.lookup dest reg = some conn) :
    handleMessage reg selfId (some (JVal.jobj o)) =
      ⟨false, some (dest, JVal.jobj (setProp o "id" (JVal.jstr selfId)))⟩ ∧
    List.lookup "id" (setProp o "id" (JVal.jstr selfId)) = some (JVal.jstr selfId) ∧
    ∀ k, k ≠ "id" →
      List.lookup k (setProp o "id" (JVal.jstr selfId)) = List.lookup k o := by
  have hgid : getProp (JVal.jobj o) "id" = some (JVal.jstr dest) := by simp [getProp, hid]
  have htr : truthy (getProp (JVal.jobj o) "id") = true := by
    rw [hgid]; exact truthy_jstr dest hne
  have hsan := sanitizeStep_nonoffer (JVal.jobj o) htype
  refine ⟨?_, lookup_setProp_self o "id" (JVal.jstr selfId),
    fun k hk => lookup_setProp_other o "id" k (JVal.jstr selfId) hk⟩
  simp [handleMessage, htr, hsan, hgid, truthy_jstr dest hne, hreg, setPropJ]

theorem forward_rewrites_only_id_witness :
    handleMessage [("b", 7)] "a"
      (some (JVal.jobj [("id", JVal.jstr "b"), ("type", JVal.jstr "candidate"),
        ("candidate", JVal.jstr "cand")])) =
      ⟨false, some ("b", JVal.jobj [("id", JVal.jstr "a"), ("type", JVal.jstr "candidate"),
        ("candidate", JVal.jstr "cand")])⟩ :=
  (forward_rewrites_only_id [("b", 7)] "a"
    [("id", JVal.jstr "b"), ("type", JVal.jstr "candidate"),
     ("candidate", JVal.jstr "cand")] "b" 7 rfl (by decide) rfl rfl).1

/-- C8: an offer whose description has only allowed media kinds and no
denylisted `a=extmap:` line is forwarded with the `sdp` field byte-identical
to the sender's input. -/
theorem clean_offer_sdp_byte_identical
    (reg : List (String × Nat)) (selfId : String) (o : List (String × JVal))
    (dest : String) (conn : Nat) (sdp : String)
    (hid : List.lookup "id" o = some (JVal.jstr dest)) (hne : dest ≠ "")
    (htype : isOfferType (getProp (JVal.jobj o) "type") = true)
    (hsdp : List.lookup "sdp" o = some (JVal.jstr sdp))
    (hreg : List.lookup dest reg = some conn)
    (hkinds : ∀ sec ∈ (splitSectionsL sdp.data).drop 1, allowedKindL sec = true)
    (hext : ∀ sec ∈ (splitSectionsL sdp.data).drop 1,
      ∀ line ∈ matchPreL sec extmapMarkL, denylisted (parseExtmapUriL line) = false) :
    handleMessage reg selfId (some (JVal.jobj o)) =
      ⟨false, some (dest,
        JVal.jobj (setProp (setProp o "sdp" (JVal.jstr sdp)) "id" (JVal.jstr selfId)))⟩ ∧
    List.lookup "sdp" (setProp (setProp o "sdp" (JVal.jstr sdp)) "id" (JVal.jstr selfId)) =
      some (JVal.jstr sdp) := by
  have hclean : sanitizeSdpL sdp.data = some sdp.data := sanitizeGo_clean _ _ hkinds hext
  have hmk : String.mk sdp.data = sdp := by cases sdp; rfl
  have hgsdp : getProp (JVal.jobj o) "sdp" = some (JVal.jstr sdp) := by simp [getProp, hsdp]
  have hsan : sanitizeStep (JVal.jobj o) =
      some (JVal.jobj (setProp o "sdp" (JVal.jstr sdp))) := by
    simp [sanitizeStep, htype, sanitizeOffer, hgsdp, hclean, hmk, setPropJ]
  have hdid : getProp (JVal.jobj (setProp o "sdp" (JVal.jstr sdp))) "id" =
      some (JVal.jstr dest) := by
    simp [getProp, lookup_setProp_other o "sdp" "id" (JVal.jstr sdp) (by decide), hid]
  have hgid : getProp (JVal.jobj o) "id" = some (JVal.jstr dest) := by simp [getProp, hid]
  have htr : truthy (getProp (JVal.jobj o) "id") = true := by
    rw [hgid]; exact truthy_jstr dest hne
  constructor
  · simp [handleMessage, htr, hsan, hdid, hreg, setPropJ]
  · rw [lookup_setProp_other _ _ _ _ (by decide : "sdp" ≠ "id"), lookup_setProp_self]

theorem clean_offer_sdp_byte_identical_witness :
    handleMessage [("b", 7)] "a"
      (some (JVal.jobj [("id", JVal.jstr "b"), ("type", JVal.jstr "offer"),
        ("sdp", JVal.jstr "v=0\nm=audio 9 UDP\na=extmap:1 urn:3gpp:video-orientation\n")])) =
      ⟨false, some ("b", JVal.jobj [("id", JVal.jstr "a"), ("type", JVal.jstr "offer"),
        ("sdp", JVal.jstr "v=0\nm=audio 9 UDP\na=extmap:1 urn:3gpp:video-orientation\n")])⟩ :=
  (clean_offer_sdp_byte_identical [("b", 7)] "a"
    [("id", JVal.jstr "b"), ("type", JVal.jstr "offer"),
     ("sdp", JVal.jstr "v=0\nm=audio 9 UDP\na=extmap:1 urn:3gpp:video-orientation\n")]
    "b" 7 "v=0\nm=audio 9 UDP\na=extmap:1 urn:3gpp:video-orientation\n"
    rfl (by decide) rfl rfl rfl (by decide) (by decide)).1

/-- C10 counterexample: a registered connection sending an offer addressed
to its own id whose description contains an application media section is
terminated, and nothing is routed back to it — so not every self-addressed
envelope is forwarded to the sender. -/
theorem self_offer_rejected_cex :
    handleMessage [("a", 0)] "a"
      (some (JVal.jobj [("id", JVal.jstr "a"), ("type", JVal.jstr "offer"),
        ("sdp", JVal.jstr "v=0\nm=application 9 UDP\n")])) = ⟨true, none⟩ := rfl

/-- C10 (amended): a registered connection sending an envelope addressed to
its own id that passes the sanitizer step (any non-offer, or an offer whose
sanitization succeeds) has it routed back to itself, with the id field
rewritten to its own id. -/
theorem self_routing_loopback
    (reg : List (String × Nat)) (selfId : String) (c : Nat)
    (o : List (String × JVal)) (d : JVal)
    (hreg : List.lookup selfId reg = some c) (hne : selfId ≠ "")
    (hid : List.lookup "id" o = some (JVal.jstr selfId))
    (hsan : sanitizeStep (JVal.jobj o) = some d) :
    handleMessage reg selfId (some (JVal.jobj o)) =
      ⟨false, some (selfId, setPropJ d "id" (JVal.jstr selfId))⟩ ∧
    getProp (setPropJ d "id" (JVal.jstr selfId)) "id" = some (JVal.jstr selfId) := by
  have hgid : getProp (JVal.jobj o) "id" = some (JVal.jstr selfId) := by simp [getProp, hid]
  have hdid : getProp d "id" = some (JVal.jstr selfId) := by
    rw [sanitizeStep_id _ _ hsan, hgid]
  have htr : truthy (getProp (JVal.jobj o) "id") = true := by
    rw [hgid]; exact truthy_jstr selfId hne
  obtain ⟨o', rfl⟩ := sanitizeStep_obj o d hsan
  constructor
  · simp [handleMessage, htr, hsan, hdid, hreg, setPropJ]
  · simp [setPropJ, getProp, lookup_setProp_self]

theorem self_routing_loopback_witness :
    handleMessage [("a", 5)] "a"
      (some (JVal.jobj [("id", JVal.jstr "a"), ("type", JVal.jstr "bye")])) =
      ⟨false, some ("a", JVal.jobj [("id", JVal.jstr "a"), ("type", JVal.jstr "bye")])⟩ :=
  (self_routing_loopback [("a", 5)] "a" 5
    [("id", JVal.jstr "a"), ("type", JVal.jstr "bye")]
    (JVal.jobj [("id", JVal.jstr "a"), ("type", JVal.jstr "bye")])
    rfl (by decide) rfl rfl).1

/-- C4 counterexample: with the generated id already present in the registry,
the duplicate connection's socket is closed with the graceful `ws.close()`;
no forced `ws.terminate()` occurs on this path, contradicting the claim that
the termination is forced with no graceful handshake.  The registry entry is
untouched and no message is sent. -/
theorem duplicate_id_close_not_terminate_cex :
    handleConnection [("x", 0)] "x" 1 = ([("x", 0)], [ConnEvent.close 1]) ∧
    ∀ e ∈ (handleConnection [("x", 0)] "x" 1).2, e ≠ ConnEvent.terminate 1 := by
  refine ⟨rfl, ?_⟩
  intro e he
  rw [show (handleConnection [("x", 0)] "x" 1).2 = [ConnEvent.close 1] from rfl] at he
  rcases List.mem_singleton.mp he with rfl
  exact fun hcontra => ConnEvent.noConfusion hcontra

/-- C4 (amended): a new connection whose generated id already has a registry
entry never overwrites that entry and is closed immediately — via the
graceful `ws.close()`, not a forced terminate — with no message (hello or
iceServers) sent to it. -/
theorem duplicate_id_rejected_gracefully
    (reg : List (String × Nat)) (id : String) (c c0 : Nat)
    (h : List.lookup id reg = some c0) :
    handleConnection reg id c = (reg, [ConnEvent.close c]) := by
  simp [handleConnection, h]

theorem duplicate_id_rejected_gracefully_witness :
    handleConnection [("x", 0)] "x" 1 = ([("x", 0)], [ConnEvent.close 1]) :=
  duplicate_id_rejected_gracefully [("x", 0)] "x" 1 0 rfl

/-- C7: a connection whose generated id is fresh is stored in the registry
first, and then exactly two messages are sent, in order: the hello carrying
the assigned id, then the iceServers list. -/
theorem registration_greeting_order
    (reg : List (String × Nat)) (id : String) (c : Nat)
    (h : List.lookup id reg = none) :
    handleConnection reg id c =
      (reg ++ [(id, c)],
       [ConnEvent.store id c, ConnEvent.send c (helloMsg id),
        ConnEvent.send c iceServersMsg]) ∧
    List.lookup id (reg ++ [(id, c)]) = some c := by
  refine ⟨?_, lookup_append_single reg id c h⟩
  simp [handleConnection, h, mapSet_eq_append reg id c h]

theorem registration_greeting_order_witness :
    handleConnection [] "a" 3 =
      ([("a", 3)],
       [ConnEvent.store "a" 3, ConnEvent.send 3 (helloMsg "a"),
        ConnEvent.send 3 iceServersMsg]) :=
  (registration_greeting_order [] "a" 3 rfl).1

/-- The session description of the C1 failing input: LF line terminators and
a denylisted `a=extmap:` line carrying one trailing space before its
terminator.  `SDPUtils.matchPrefix` returns the trimmed line, so the
sanitizer recognises the denylisted URI, but both substring removals
(`line + '\r\n'` and `line + '\n'`) miss the raw text. -/
def bypassSdp : String :=
  "v=0\nm=video 9 UDP\na=extmap:3 http://www.webrtc.org/experiments/rtp-hdrext/video-timing \n"

/-- The C1 failing input: an offer envelope carrying `bypassSdp`. -/
def bypassOffer : JVal :=
  JVal.jobj [("id", JVal.jstr "b"), ("type", JVal.jstr "offer"),
    ("sdp", JVal.jstr bypassSdp)]

/-- C1: evaluation at the failing input.  The description contains, in a
media section, an `a=extmap:` line whose parsed URI is denylisted, yet the
offer is forwarded with its `sdp` byte-identical to the input: the
denylisted line is not removed, contradicting the claim (and the stated
purpose of the removal code in `server.js`). -/
theorem extmap_bypass_trailing_space_forwarded :
    (∃ sec ∈ (splitSectionsL bypassSdp.data).drop 1,
      ∃ line ∈ matchPreL sec extmapMarkL, denylisted (parseExtmapUriL line) = true) ∧
    handleMessage [("b", 0)] "a" (some bypassOffer) =
      ⟨false, some ("b", JVal.jobj [("id", JVal.jstr "a"), ("type", JVal.jstr "offer"),
        ("sdp", JVal.jstr bypassSdp)])⟩ :=
  ⟨by decide, rfl⟩
